import Mathlib

/-!
Shallow embedding of the `mastra-permission-tools` permission-gating core:
security-level ordering (`src/core/security-levels.ts`), parameter-rule
evaluation (`src/rules/rule-evaluator.ts`), permission-key derivation
(`src/core/store.ts`), the in-memory permission store
(`src/storage/memory-store.ts`), the interception hooks
(`src/core/hooks.ts`), the tool-execution proxy (`src/core/proxy.ts`) and
the policy validator (`src/policies/policy-validator.ts`).

Modelling conventions:
* JavaScript dynamic values are modelled by the inductive `JsonValue`;
  numbers are modelled as integers (every numeric literal appearing in the
  repository's policies and rules is an integer).
* `undefined` / absent optional fields are modelled with `Option`.
* `Date.now()` is passed explicitly as a `Nat` argument (epoch milliseconds).
* Stateful store methods are pure functions threading the store value.
* Promises are collapsed: all the embedded code is sequential and the only
  `await`s are on the store (itself pure here), so `async` functions become
  plain functions; a thrown JavaScript exception is an `Except.error`.
-/

set_option maxRecDepth 10000

namespace MPT

/-- The five security levels of `src/types/security.ts` (`SecurityLevelEnum`).
In TypeScript the runtime representation is the lowercase string. -/
inductive SecurityLevel where
  | none_
  | low
  | medium
  | high
  | critical
deriving DecidableEq, Repr

/-- The runtime string of a security level (the TS enum member value). -/
def SecurityLevel.toStr : SecurityLevel → String
  | .none_ => "none"
  | .low => "low"
  | .medium => "medium"
  | .high => "high"
  | .critical => "critical"

/-- JavaScript values as they appear in parameter bags, rule values and
metadata: numbers (modelled as integers), strings, booleans, `null`,
objects (insertion-ordered field lists) and arrays. -/
inductive JsonValue where
  | num (n : Int)
  | str (s : String)
  | bool (b : Bool)
  | null
  | obj (fields : List (String × JsonValue))
  | arr (elems : List JsonValue)

/-- A parameter bag (`Record<string, any>`): an insertion-ordered list of
fields.  JavaScript objects never carry duplicate keys; theorems that
need this state it as a `Nodup` hypothesis on the key list. -/
abbrev Params := List (String × JsonValue)

/-- JavaScript `String(x)` on our value model.  `Array.prototype.toString`
joins the elements with commas; plain objects stringify to
"[object Object]". -/
def jsToString : JsonValue → String
  | .num n => toString n
  | .str s => s
  | .bool b => cond b "true" "false"
  | .null => "null"
  | .obj _ => "[object Object]"
  | .arr es => String.intercalate "," (jsToStringList es)
where
  /-- Stringify array elements (JS renders `null` elements as ""). -/
  jsToStringList : List JsonValue → List String
  | [] => []
  | .null :: es => "" :: jsToStringList es
  | e :: es => jsToString e :: jsToStringList es

/-- Decimal digits of a string, as a natural number, for strings made of
ASCII digits only. -/
def digitsToNat (cs : List Char) : Nat :=
  cs.foldl (fun a c => a * 10 + (c.toNat - 48)) 0

/-- JavaScript `Number(x)` on our value model, `Option.none` standing for
`NaN`.  String parsing is modelled for the integer-literal subset
(optionally signed decimal digits, empty/whitespace string is 0); arrays
and objects are modelled as `NaN` (JavaScript coerces via their string
form, which no code path of this repository relies on). -/
def jsToNumber : JsonValue → Option Int
  | .num n => some n
  | .bool b => some (cond b 1 0)
  | .null => some 0
  | .obj _ => none
  | .arr _ => none
  | .str s =>
    let t := s.trim
    if t = "" then some 0
    else
      let cs := t.toList
      match cs with
      | '-' :: rest => if rest ≠ [] ∧ rest.all Char.isDigit then some (-(digitsToNat rest : Int)) else none
      | '+' :: rest => if rest ≠ [] ∧ rest.all Char.isDigit then some ((digitsToNat rest : Int)) else none
      | _ => if cs.all Char.isDigit then some ((digitsToNat cs : Int)) else none

/-- JavaScript `a.includes(b)` on strings (substring test; the empty
needle is always included). -/
def strIncludes (s sub : String) : Bool :=
  sub = "" || (s.splitOn sub).length > 1

/-- JavaScript strict equality `===` on our value model: value equality on
primitives; `false` on objects and arrays (reference equality — a rule's
literal value and an incoming argument are distinct references). -/
def jsStrictEq : JsonValue → JsonValue → Bool
  | .num a, .num b => a = b
  | .str a, .str b => a = b
  | .bool a, .bool b => a = b
  | .null, .null => true
  | _, _ => false

/-! ### `src/core/security-levels.ts` -/

/-- `getSecurityLevelValue(level?)`: the numeric rank of a security level;
`undefined` maps to `-1`. -/
def getSecurityLevelValue : Option SecurityLevel → Int
  | some .none_ => 0
  | some .low => 1
  | some .medium => 2
  | some .high => 3
  | some .critical => 4
  | none => -1

/-- `compareSecurityLevels(level1?, level2?)`: rank difference. -/
def compareSecurityLevels (level1 level2 : Option SecurityLevel) : Int :=
  getSecurityLevelValue level1 - getSecurityLevelValue level2

/-- `getHigherSecurityLevel(level1?, level2?)`: `medium` when both are
absent, the defined one when exactly one is absent, else the one with the
larger rank (ties return the first operand, as in the source's
`compare > 0 ? level1 : level2`). -/
def getHigherSecurityLevel : Option SecurityLevel → Option SecurityLevel → SecurityLevel
  | none, none => .medium
  | none, some l2 => l2
  | some l1, none => l1
  | some l1, some l2 =>
    if compareSecurityLevels (some l1) (some l2) > 0 then l1 else l2

/-- Per-level default handling (`defaults` entries and the built-in
`DEFAULT_SECURITY_LEVELS` table share this shape). -/
structure LevelPolicy where
  requirePermission : Bool
  expiry : Option String := none
  requireConfirmation : Option Bool := none
deriving DecidableEq, Repr

/-- The built-in `DEFAULT_SECURITY_LEVELS` table of
`src/core/security-levels.ts`. -/
def DEFAULT_SECURITY_LEVELS : SecurityLevel → LevelPolicy
  | .none_ => { requirePermission := false }
  | .low => { requirePermission := true, expiry := some "24h" }
  | .medium => { requirePermission := true, expiry := some "1h" }
  | .high => { requirePermission := true, expiry := some "session" }
  | .critical =>
    { requirePermission := true, expiry := some "once", requireConfirmation := some true }

/-- `isValidSecurityLevel(value)` of `src/core/security-levels.ts`, on
string input (the validator feeds it raw strings): membership in the five
enum values. -/
def isValidSecurityLevel (value : String) : Bool :=
  value = "none" || value = "low" || value = "medium" || value = "high" || value = "critical"

/-! ### `src/rules/rule-evaluator.ts` -/

/-- A `ParameterRule` (`src/types/rules.ts`).  The condition is kept as a
raw string because `evaluateRule` has a default branch for unknown
conditions. -/
structure ParameterRule where
  param : String
  condition : String
  value : JsonValue
  securityLevel : Option SecurityLevel := none
  message : Option String := none

/-- Regex metacharacters; `jsRegexTest` only models metacharacter-free
patterns. -/
def isRegexMeta (c : Char) : Bool :=
  c ∈ ['\\', '^', '$', '.', '|', '?', '*', '+', '(', ')', '[', ']', Char.ofNat 123, Char.ofNat 125]

/-- Model of JavaScript `new RegExp(pattern).test(s)`, restricted to
patterns without regex metacharacters, where the test is a substring
search; patterns containing metacharacters are outside the model and
return `false`.  No claim of this development depends on regex
semantics. -/
def jsRegexTest (pattern s : String) : Bool :=
  if pattern.toList.any isRegexMeta then false else strIncludes s pattern

/-- `evaluateRule(rule, params)`: a missing parameter never matches;
otherwise dispatch on the condition string (unknown conditions are logged
and treated as non-matches). -/
def evaluateRule (rule : ParameterRule) (params : Params) : Bool :=
  match params.lookup rule.param with
  | none => false
  | some paramValue =>
    if rule.condition = "equals" then jsStrictEq paramValue rule.value
    else if rule.condition = "contains" then
      strIncludes (jsToString paramValue) (jsToString rule.value)
    else if rule.condition = "startsWith" then
      (jsToString rule.value).isPrefixOf (jsToString paramValue)
    else if rule.condition = "endsWith" then
      (jsToString paramValue).endsWith (jsToString rule.value)
    else if rule.condition = "regex" then
      jsRegexTest (jsToString rule.value) (jsToString paramValue)
    else if rule.condition = "greaterThan" then
      match jsToNumber paramValue, jsToNumber rule.value with
      | some a, some b => a > b
      | _, _ => false
    else if rule.condition = "lessThan" then
      match jsToNumber paramValue, jsToNumber rule.value with
      | some a, some b => a < b
      | _, _ => false
    else false

/-- Result shape of `evaluateParameterRules`. -/
structure RuleEvaluationResult where
  securityLevel : Option SecurityLevel
  message : Option String
  matchedRules : List ParameterRule

/-- JavaScript truthiness of an optional string (`undefined` and `""` are
falsy). -/
def truthyStr : Option String → Bool
  | some s => s ≠ ""
  | none => false

/-- The loop body of `evaluateParameterRules`, threading the running
security level and message accumulators; matched rules are collected in
traversal order. -/
def evalRulesLoop (params : Params) :
    List ParameterRule → Option SecurityLevel → Option String → RuleEvaluationResult
  | [], lvl, msg => ⟨lvl, msg, []⟩
  | rule :: rest, lvl, msg =>
    if evaluateRule rule params then
      let lvl' := match rule.securityLevel with
        | some l => some (getHigherSecurityLevel lvl (some l))
        | none => lvl
      let msg' := if truthyStr rule.message then rule.message else msg
      let r := evalRulesLoop params rest lvl' msg'
      ⟨r.securityLevel, r.message, rule :: r.matchedRules⟩
    else
      evalRulesLoop params rest lvl msg

/-- `evaluateParameterRules(toolName, params, rules)`: run the loop over
the rule list registered for the tool (absent → empty list) with empty
accumulators. -/
def evaluateParameterRules (toolName : String) (params : Params)
    (rules : List (String × List ParameterRule)) : RuleEvaluationResult :=
  evalRulesLoop params ((rules.lookup toolName).getD []) none none

/-! ### `src/core/store.ts` — permission-key derivation

`hashParams` calls `JSON.stringify(params, Object.keys(params).sort())`.
With an array replacer, `JSON.stringify` serializes every (non-array)
object — at every nesting depth — by iterating the replacer list: a key is
emitted iff it appears in the replacer list, in replacer-list order.  We
model this as a recursive filter/reorder pass (`jsFilter`) followed by a
plain serializer (`serJson`). -/

/-- Escape the two JSON string metacharacters (quote and backslash); the
repository's keys and values contain no control characters. -/
def jsonEscape (s : String) : String :=
  String.join (s.toList.map fun c =>
    if c = '"' then "\\\"" else if c = '\\' then "\\\\" else String.singleton c)

/-- A JSON string literal. -/
def jsonQuote (s : String) : String := "\"" ++ jsonEscape s ++ "\""

/-- Keep exactly the fields named in the replacer list `K`, in the order
of `K` (a key of `K` missing from the object is skipped). -/
def reorderFields (K : List String) (fs : List (String × JsonValue)) :
    List (String × JsonValue) :=
  K.filterMap fun k => (fs.lookup k).map fun v => (k, v)

mutual

/-- The array-replacer filtering pass of `JSON.stringify`: every object's
fields are restricted to, and reordered by, the replacer list `K`;
arrays keep all elements. -/
def jsFilter (K : List String) : JsonValue → JsonValue
  | .obj fs => .obj (reorderFields K (jsFilterFields K fs))
  | .arr es => .arr (jsFilterArr K es)
  | .num n => .num n
  | .str s => .str s
  | .bool b => .bool b
  | .null => .null

/-- `jsFilter` mapped over an object's fields. -/
def jsFilterFields (K : List String) : List (String × JsonValue) → List (String × JsonValue)
  | [] => []
  | (k, v) :: t => (k, jsFilter K v) :: jsFilterFields K t

/-- `jsFilter` mapped over an array's elements. -/
def jsFilterArr (K : List String) : List JsonValue → List JsonValue
  | [] => []
  | v :: t => jsFilter K v :: jsFilterArr K t

end

mutual

/-- Plain JSON serialization (no replacer). -/
def serJson : JsonValue → String
  | .num n => toString n
  | .str s => jsonQuote s
  | .bool b => cond b "true" "false"
  | .null => "null"
  | .obj fs => "\x7b" ++ String.intercalate "," (serFields fs) ++ "\x7d"
  | .arr es => "[" ++ String.intercalate "," (serArr es) ++ "]"

/-- Serialized `"key":value` parts of an object. -/
def serFields : List (String × JsonValue) → List String
  | [] => []
  | (k, v) :: t => (jsonQuote k ++ ":" ++ serJson v) :: serFields t

/-- Serialized elements of an array. -/
def serArr : List JsonValue → List String
  | [] => []
  | v :: t => serJson v :: serArr t

end

/-- `Object.keys(params).sort()`: the key list in ascending string order
(JavaScript compares strings lexicographically by code unit, which agrees
with Lean's `≤` on the repository's ASCII keys). -/
def sortKeys (params : Params) : List String :=
  List.insertionSort (· ≤ ·) (params.map Prod.fst)

/-- `JSON.stringify(params, Object.keys(params).sort())`. -/
def jsStringifySorted (params : Params) : String :=
  serJson (jsFilter (sortKeys params) (.obj params))

/-- JavaScript `ToInt32`: wrap an integer into `[-2^31, 2^31)`. -/
def toInt32 (n : Int) : Int :=
  (n + 2147483648) % 4294967296 - 2147483648

/-- One iteration of the hash loop:
`hash = (hash << 5) - hash + char; hash = hash & hash`.  `<<` wraps its
result to 32 bits and `hash & hash` is `ToInt32(hash)`. -/
def hashStep (h : Int) (c : Char) : Int :=
  toInt32 (toInt32 (h * 32) - h + c.toNat)

/-- The string-hash loop of `hashParams` (characters are UTF-16 code
units; the repository's keys are plain ASCII, where `Char.toNat`
coincides with `charCodeAt`). -/
def hashString (s : String) : Int :=
  s.toList.foldl hashStep 0

/-- `Math.abs(hash).toString(16)`: lowercase hexadecimal of the absolute
value. -/
def natToHex (n : Nat) : String :=
  String.mk (Nat.toDigits 16 n)

/-- `hashParams(params)` of `src/core/store.ts`. -/
def hashParams (params : Params) : String :=
  natToHex (hashString (jsStringifySorted params)).natAbs

/-- `generatePermissionKey(userId, toolName, params?)`: `"userId:toolName"`,
suffixed with `":<hash>"` when the parameter bag is non-empty. -/
def generatePermissionKey (userId toolName : String) (params : Params) : String :=
  let key := userId ++ ":" ++ toolName
  if params.length > 0 then key ++ ":" ++ hashParams params else key

/-! ### `src/storage/memory-store.ts` -/

/-- A grant record (`PermissionInfo` of `src/storage/interfaces.ts`);
timestamps are epoch milliseconds.  The `metadata` bag is kept abstract as
an optional parameter list. -/
structure PermissionInfo where
  granted : Bool
  expiresAt : Option Nat := none
  grantedAt : Nat
  metadata : Option Params := none

/-- The in-memory store: a map from permission key to record, modelled as
an association list with unique keys maintained by `storeInsert`. -/
abbrev Store := List (String × PermissionInfo)

/-- `Map.delete(key)`. -/
def storeDelete (store : Store) (key : String) : Store :=
  store.filter fun kv => kv.1 ≠ key

/-- `Map.set(key, value)`: replace any existing binding. -/
def storeInsert (store : Store) (key : String) (info : PermissionInfo) : Store :=
  (key, info) :: storeDelete store key

/-- `calculateExpiresAt(expiresIn, now)`: the preset tokens, then the
custom-duration pattern `^(\d+)([mhd])$`; anything else (and `"once"`)
yields no expiry timestamp. -/
def calculateExpiresAt (expiresIn : String) (now : Nat) : Option Nat :=
  if expiresIn = "once" then none
  else if expiresIn = "session" then some (now + 24 * 60 * 60 * 1000)
  else if expiresIn = "1h" then some (now + 60 * 60 * 1000)
  else if expiresIn = "24h" then some (now + 24 * 60 * 60 * 1000)
  else if expiresIn = "7d" then some (now + 7 * 24 * 60 * 60 * 1000)
  else
    match parseCustomExpiry expiresIn with
    | some (n, unit) =>
      if unit = 'm' then some (now + n * 60 * 1000)
      else if unit = 'h' then some (now + n * 60 * 60 * 1000)
      else some (now + n * 24 * 60 * 60 * 1000)
    | none => none
where
  /-- Full match of `^(\d+)([mhd])$`: one or more ASCII digits followed by
  a unit character. -/
  parseCustomExpiry (s : String) : Option (Nat × Char) :=
    let cs := s.toList
    match cs.getLast? with
    | some u =>
      if u = 'm' ∨ u = 'h' ∨ u = 'd' then
        let digits := cs.dropLast
        if digits ≠ [] ∧ digits.all Char.isDigit then some (digitsToNat digits, u)
        else none
      else none
    | none => none

/-- `MemoryPermissionStore.getPermission(key)` at time `now`: lazily evict
(and return `null` for) a record whose `expiresAt` is truthy and in the
past.  Returns the read result together with the possibly-evicted
store. -/
def getPermission (store : Store) (key : String) (now : Nat) :
    Option PermissionInfo × Store :=
  match store.lookup key with
  | none => (none, store)
  | some permission =>
    if (match permission.expiresAt with
        | some e => e ≠ 0 && e < now
        | none => false) then
      (none, storeDelete store key)
    else
      (some permission, store)

/-- `MemoryPermissionStore.setPermission(key, granted, expiresIn?, metadata?)`
at time `now`: compute the expiry timestamp (skipped for a falsy
`expiresIn`), store nothing when `expiresIn === "once"`, else insert the
record. -/
def setPermission (store : Store) (key : String) (granted : Bool)
    (expiresIn : Option String) (metadata : Option Params) (now : Nat) : Store :=
  let expiresAt : Option Nat :=
    match expiresIn with
    | some s => if s = "" then none else calculateExpiresAt s now
    | none => none
  if expiresIn = some "once" then store
  else storeInsert store key
    { granted := granted, expiresAt := expiresAt, grantedAt := now, metadata := metadata }

/-- `MemoryPermissionStore.removePermission(key)`. -/
def removePermission (store : Store) (key : String) : Store :=
  storeDelete store key

/-- `MemoryPermissionStore.clearExpiredPermissions()` at time `now`. -/
def clearExpiredPermissions (store : Store) (now : Nat) : Store :=
  store.filter fun kv =>
    !(match kv.2.expiresAt with
      | some e => e ≠ 0 && e < now
      | none => false)

/-! ### `src/core/hooks.ts` -/

/-- Per-tool metadata (`ToolMetadata` of `src/types/security.ts`; the
fields not read by the hooks are omitted). -/
structure ToolMetadata where
  securityLevel : Option SecurityLevel := none
  category : Option String := none
  permissionMessage : Option String := none
deriving Repr

/-- A security policy (`SecurityPolicy` of `src/types/security.ts`).
`categories` maps a category name to its `{ securityLevel }` record,
modelled as the level itself. -/
structure SecurityPolicy where
  tools : List (String × ToolMetadata) := []
  categories : List (String × SecurityLevel) := []
  defaults : List (SecurityLevel × LevelPolicy) := []
  parameterRules : Option (List (String × List ParameterRule)) := none

/-- `determineSecurityLevel(toolName, metadata, params, securityPolicy)`:
explicit tool level, else (when the metadata names a category — JavaScript
truthiness, so the empty string does not count) the category's level; then
a strictly higher parameter-rule level overrides; finally default to
`medium`. -/
def determineSecurityLevel (toolName : String) (metadata : ToolMetadata)
    (params : Params) (securityPolicy : SecurityPolicy) : SecurityLevel :=
  let securityLevel0 := metadata.securityLevel
  let securityLevel1 :=
    if securityLevel0 = none ∧ truthyStr metadata.category then
      match metadata.category with
      | some c => securityPolicy.categories.lookup c
      | none => none
    else securityLevel0
  let securityLevel2 :=
    match securityPolicy.parameterRules with
    | some rules =>
      let paramEvaluation := evaluateParameterRules toolName params rules
      match paramEvaluation.securityLevel with
      | some l =>
        if compareSecurityLevels (some l) securityLevel1 > 0 then some l
        else securityLevel1
      | none => securityLevel1
    | none => securityLevel1
  securityLevel2.getD .medium

/-- The response payload shape (`PermissionResponse` of
`src/types/proxy.ts`); `policy` is the `(expiry, requireConfirmation)`
pair. -/
structure PermissionResponse where
  status : String
  toolName : String
  message : Option String := none
  parameters : Option Params := none
  result : Option JsonValue := none
  error : Option String := none
  securityLevel : Option SecurityLevel := none
  reason : Option String := none
  policy : Option (Option String × Option Bool) := none

/-- `createPermissionResponse(toolName, parameters, securityLevel,
metadata, policy)`: the `permission_required` payload; the reason is the
tool's `permissionMessage` when truthy, else the generic fallback. -/
def createPermissionResponse (toolName : String) (parameters : Params)
    (securityLevel : SecurityLevel) (metadata : ToolMetadata)
    (policy : LevelPolicy) : PermissionResponse :=
  { status := "permission_required"
    toolName := toolName
    parameters := some parameters
    securityLevel := some securityLevel
    reason := some (if truthyStr metadata.permissionMessage then
        metadata.permissionMessage.getD ""
      else toolName ++ "ツールの実行には許可が必要です")
    policy := some (policy.expiry, policy.requireConfirmation) }

/-- `context.userId || defaultUserId` (JavaScript truthiness: a missing or
empty user id falls back to the default). -/
def effectiveUserId (ctxUserId : Option String) (defaultUserId : String) : String :=
  match ctxUserId with
  | some u => if u = "" then defaultUserId else u
  | none => defaultUserId

/-- Return shape of `beforeExecution`; `cont` is the `continue` field. -/
structure BeforeExecutionResult where
  cont : Bool
  response : Option PermissionResponse := none

/-- The `beforeExecution` hook produced by
`createPermissionHooks(securityPolicy, { store, defaultUserId })`:
resolve the user id and severity, look up the severity's handling policy
(policy `defaults`, falling back to the built-in table), pass through when
no permission is required, else consult the store (whose read may evict an
expired record) and either continue on a granted record or return the
`permission_required` payload.  The observer callbacks
(`onPermissionRequest`, …) are fire-and-forget and do not affect the
result or the store, so they are not modelled. -/
def beforeExecution (securityPolicy : SecurityPolicy) (store : Option Store)
    (defaultUserId : String) (toolName : String) (params : Params)
    (ctxUserId : Option String) (now : Nat) :
    BeforeExecutionResult × Option Store :=
  let userId := effectiveUserId ctxUserId defaultUserId
  let metadata := (securityPolicy.tools.lookup toolName).getD {}
  let securityLevel := determineSecurityLevel toolName metadata params securityPolicy
  let policy := (securityPolicy.defaults.lookup securityLevel).getD
    (DEFAULT_SECURITY_LEVELS securityLevel)
  if !policy.requirePermission then ({ cont := true }, store)
  else
    let denied (s : Option Store) : BeforeExecutionResult × Option Store :=
      ({ cont := false
         response := some (createPermissionResponse toolName params securityLevel metadata policy) }, s)
    match store with
    | some s =>
      let permissionKey := generatePermissionKey userId toolName params
      let read := getPermission s permissionKey now
      match read.1 with
      | some p => if p.granted then ({ cont := true }, some read.2) else denied (some read.2)
      | none => denied (some read.2)
    | none => denied none

/-- The `afterExecution` hook: pass-through of the underlying result (the
"granted" observer callback has no effect on it). -/
def afterExecutionHook (result : JsonValue) : JsonValue := result

/-- A thrown JavaScript `Error`. -/
structure JsError where
  message : String
deriving DecidableEq, Repr

/-- The `onError` hook: the structured error payload; the underlying
exception is consumed, never rethrown. -/
def onErrorHook (toolName : String) (error : JsError) : PermissionResponse :=
  { status := "error"
    toolName := toolName
    error := some error.message
    message := some (toolName ++ "の実行中にエラーが発生しました: " ++ error.message) }

/-- `handlePermissionResponse(toolName, parameters, approved, context,
securityPolicy, { store })`: re-resolve severity and handling policy
exactly as `beforeExecution` does; on approval store a `granted:true`
record under the derived key with the severity's configured expiry, on
denial store a `granted:false` record with no expiry.  Returns the payload
and the updated store. -/
def handlePermissionResponse (toolName : String) (parameters : Params)
    (approved : Bool) (ctxUserId : Option String)
    (securityPolicy : SecurityPolicy) (store : Option Store) (now : Nat) :
    PermissionResponse × Option Store :=
  let userId := effectiveUserId ctxUserId "anonymous"
  let metadata := (securityPolicy.tools.lookup toolName).getD {}
  let securityLevel := determineSecurityLevel toolName metadata parameters securityPolicy
  let policy := (securityPolicy.defaults.lookup securityLevel).getD
    (DEFAULT_SECURITY_LEVELS securityLevel)
  if approved then
    let store' := store.map fun s =>
      setPermission s (generatePermissionKey userId toolName parameters) true
        policy.expiry (some [("approvedAt", .num now)]) now
    ({ status := "success"
       toolName := toolName
       message := some (toolName ++ "ツールの実行が許可されました") }, store')
  else
    let store' := store.map fun s =>
      setPermission s (generatePermissionKey userId toolName parameters) false
        none (some [("deniedAt", .num now)]) now
    ({ status := "denied"
       toolName := toolName
       message := some (toolName ++ "ツールの実行は拒否されました") }, store')

/-! ### `src/core/proxy.ts` -/

/-- What a proxied tool's `execute` resolves to: a hook payload, the
wrapped tool's own result (passed through `afterExecution`), or the bare
`{ error: ... }` object used when a denial carries no response. -/
inductive ProxyOutcome where
  | payload (r : PermissionResponse)
  | value (v : JsonValue)
  | errorObj (msg : String)

/-- The `execute` of `createProxiedTool(name, tool, hooks)` instantiated
with the permission hooks.  The wrapped tool's `execute` is an optional
fallible function (absence reproduces the in-`try` `throw`).  The
surrounding `try/catch` routes every exception to `onError`; the embedded
`beforeExecution`/`afterExecution` are total, so the only error source is
the wrapped tool itself.  The result is a `ProxyOutcome` — not an
`Except` — because the catch-all guarantees normal resolution. -/
def proxiedExecute (securityPolicy : SecurityPolicy) (store : Option Store)
    (defaultUserId : String) (name : String)
    (toolExecute : Option (Params → Except JsError JsonValue))
    (params : Params) (ctxUserId : Option String) (now : Nat) :
    ProxyOutcome × Option Store :=
  let hookRun :=
    beforeExecution securityPolicy store defaultUserId name params ctxUserId now
  let beforeResult := hookRun.1
  let store' := hookRun.2
  if !beforeResult.cont then
    (match beforeResult.response with
     | some r => .payload r
     | none => .errorObj ("Tool execution not permitted for " ++ name), store')
  else
    match toolExecute with
    | none =>
      (.payload (onErrorHook name ⟨"Tool " ++ name ++ " does not have an execute method"⟩), store')
    | some ex =>
      match ex params with
      | .error e => (.payload (onErrorHook name e), store')
      | .ok result => (.value (afterExecutionHook result), store')

/-! ### `src/policies/policy-validator.ts`

The validator runs over untrusted configuration, so its security levels
and rule fields are raw strings here, unlike the typed core above.  The
dynamic-shape guards that cannot fire on a structurally well-typed value
(`policy` not an object, `tools`/`categories`/`defaults` missing,
`requirePermission` not a boolean, a rule list not an array) are omitted:
the model's types make them vacuous, and no claim concerns them. -/

/-- Raw per-tool metadata as the validator sees it. -/
structure RawToolMetadata where
  securityLevel : Option String := none
  category : Option String := none

/-- Raw category configuration (`{ securityLevel }`). -/
structure RawCategoryConfig where
  securityLevel : String

/-- Raw per-level default configuration. -/
structure RawLevelConfig where
  requirePermission : Bool
  expiry : Option String := none
  requireConfirmation : Option Bool := none

/-- A raw parameter rule as the validator sees it (`value === undefined`
is representable). -/
structure RawRule where
  param : String := ""
  condition : String := ""
  value : Option JsonValue := none

/-- A raw security policy document. -/
structure RawSecurityPolicy where
  tools : List (String × RawToolMetadata) := []
  categories : List (String × RawCategoryConfig) := []
  defaults : List (String × RawLevelConfig) := []
  parameterRules : List (String × List RawRule) := []

/-- Whether `new RegExp(pattern)` compiles.  Pattern-syntax failure is not
modelled (every pattern is taken to compile); no claim of this development
depends on it. -/
def jsRegexCompiles (pattern : String) : Bool :=
  pattern = pattern

/-- `validateRule(rule)` of `src/rules/rule-evaluator.ts` on a raw rule:
`param` and `condition` must be truthy strings, `value` must be defined,
and a `regex` rule's value must compile. -/
def validateRule (rule : RawRule) : Bool :=
  if rule.param = "" then false
  else if rule.condition = "" then false
  else if rule.value.isNone then false
  else if rule.condition = "regex" then jsRegexCompiles (jsToString (rule.value.getD .null))
  else true

/-- `isValidExpiry(expiry)` of the validator: the presets `once` and
`session`, or the custom pattern `^(\d+)([mhd])$`. -/
def isValidExpiry (expiry : String) : Bool :=
  expiry = "once" || expiry = "session" ||
    (calculateExpiresAt.parseCustomExpiry expiry).isSome

/-- `Object.values(SecurityLevel)` in declaration order. -/
def securityLevelStrings : List String :=
  ["none", "low", "medium", "high", "critical"]

/-- Errors from the tools loop: a truthy but invalid `securityLevel`. -/
def toolLevelErrors (policy : RawSecurityPolicy) : List String :=
  policy.tools.flatMap fun nm =>
    match nm.2.securityLevel with
    | some lvl =>
      if lvl ≠ "" ∧ ¬ isValidSecurityLevel lvl then
        ["Invalid security level for tool \"" ++ nm.1 ++ "\": " ++ lvl]
      else []
    | none => []

/-- Warnings from the tools loop: a truthy category name with no entry in
`policy.categories`. -/
def toolCategoryWarnings (policy : RawSecurityPolicy) : List String :=
  policy.tools.flatMap fun nm =>
    match nm.2.category with
    | some c =>
      if c ≠ "" ∧ (policy.categories.lookup c).isNone then
        ["Tool \"" ++ nm.1 ++ "\" references undefined category: " ++ c]
      else []
    | none => []

/-- Errors from the categories loop: an invalid `securityLevel`. -/
def categoryLevelErrors (policy : RawSecurityPolicy) : List String :=
  policy.categories.flatMap fun nc =>
    if ¬ isValidSecurityLevel nc.2.securityLevel then
      ["Invalid security level for category \"" ++ nc.1 ++ "\": " ++ nc.2.securityLevel]
    else []

/-- Warnings for security levels missing from `policy.defaults`. -/
def missingDefaultWarnings (policy : RawSecurityPolicy) : List String :=
  securityLevelStrings.flatMap fun lvl =>
    if (policy.defaults.lookup lvl).isNone then
      ["Missing default configuration for security level: " ++ lvl]
    else []

/-- Errors from the defaults-entry loop: an invalid level key, or a truthy
but invalid expiry token. -/
def defaultsEntryErrors (policy : RawSecurityPolicy) : List String :=
  policy.defaults.flatMap fun lc =>
    (if ¬ isValidSecurityLevel lc.1 then
      ["Invalid security level in defaults: " ++ lc.1]
    else []) ++
    (match lc.2.expiry with
     | some e =>
       if e ≠ "" ∧ ¬ isValidExpiry e then
         ["Invalid expiry value for level " ++ lc.1 ++ ": " ++ e]
       else []
     | none => [])

/-- Errors from the parameter-rules loop: each rule failing
`validateRule`. -/
def ruleErrors (policy : RawSecurityPolicy) : List String :=
  policy.parameterRules.flatMap fun nr =>
    nr.2.flatMap fun rule =>
      if ¬ validateRule rule then
        ["Invalid parameter rule for tool \"" ++ nr.1 ++ "\""]
      else []

/-- Result shape of `validateSecurityPolicy`. -/
structure PolicyValidationResult where
  valid : Bool
  errors : List String
  warnings : List String

/-- `validateSecurityPolicy(policy)`: collect errors and warnings from
every section in source order; `valid` iff no errors.  The function is
total — it reports through the structured result instead of throwing. -/
def validateSecurityPolicy (policy : RawSecurityPolicy) : PolicyValidationResult :=
  let errors := toolLevelErrors policy ++ categoryLevelErrors policy ++
    defaultsEntryErrors policy ++ ruleErrors policy
  let warnings := toolCategoryWarnings policy ++ missingDefaultWarnings policy
  { valid := errors.isEmpty, errors := errors, warnings := warnings }

/-! ### Claim-side definitions

The following definitions transcribe the *spec's* description of the
algorithms (for the refinement-style claims); the theorems below compare
them with the source-side definitions above. -/

/-- Spec-side severity resolution (spec §4.3 / claim C1): start from the
tool metadata's level; only if absent, take the level of the category
named by the metadata (an empty category name names nothing); a
parameter-rule level strictly higher (by `compareSecurityLevels`) than the
current candidate replaces it; default `medium`. -/
def claimResolvedLevel (toolName : String) (metadata : ToolMetadata)
    (params : Params) (securityPolicy : SecurityPolicy) : SecurityLevel :=
  let base : Option SecurityLevel :=
    match metadata.securityLevel with
    | some l => some l
    | none =>
      match metadata.category with
      | some c => if c = "" then none else securityPolicy.categories.lookup c
      | none => none
  let ruleLevel :=
    (evaluateParameterRules toolName params
      (securityPolicy.parameterRules.getD [])).securityLevel
  let escalated :=
    match ruleLevel with
    | some rl => if compareSecurityLevels (some rl) base > 0 then some rl else base
    | none => base
  escalated.getD .medium

/-- Spec-side (claim C6): the matching rules, in rule-list order. -/
def claimMatchedRules (params : Params) (rs : List ParameterRule) : List ParameterRule :=
  rs.filter fun r => evaluateRule r params

/-- Spec-side (claim C6): the fold of `getHigherSecurityLevel` over the
levels of the rules that specify one; `none` when no rule does. -/
def claimFoldLevel (rs : List ParameterRule) : Option SecurityLevel :=
  (rs.filterMap (·.securityLevel)).foldl
    (fun a l => some (getHigherSecurityLevel a (some l))) none

/-- Spec-side (claim C6): the message of the last rule carrying a (truthy)
message. -/
def claimLastMessage (rs : List ParameterRule) : Option String :=
  (rs.filterMap fun r => if truthyStr r.message then r.message else none).getLast?

/-! ### Concrete inputs used by scenarios, counterexamples and witnesses -/

/-- The spec's scenario policy: tool `"Pay"` has base metadata level
`low`, and the parameter rule
`{param:"amount", condition:"greaterThan", value:1000, securityLevel:"critical"}`
is registered for `"Pay"`. -/
def payPolicy : SecurityPolicy :=
  { tools := [("Pay", { securityLevel := some .low })]
    parameterRules := some [("Pay",
      [{ param := "amount", condition := "greaterThan", value := .num 1000,
         securityLevel := some .critical }])] }

/-- A policy whose tool `"Pay"` resolves to `critical` with no `defaults`
entry, so the built-in table applies and the configured expiry is
`"once"`. -/
def critOncePolicy : SecurityPolicy :=
  { tools := [("Pay", { securityLevel := some .critical })] }

/-- A policy whose tool `"T"` is at level `none`, where no permission is
required at all. -/
def openPolicy : SecurityPolicy :=
  { tools := [("T", { securityLevel := some .none_ })] }

/-- A policy whose tool `"T"` is at level `low` with no `defaults` entry,
so the built-in table applies: permission required, expiry `"24h"`. -/
def lowPolicy : SecurityPolicy :=
  { tools := [("T", { securityLevel := some .low })] }

/-- Parameter bag `{a:{x:1}}`. -/
def nestedBag1 : Params := [("a", .obj [("x", .num 1)])]

/-- Parameter bag `{a:{y:9}}`. -/
def nestedBag2 : Params := [("a", .obj [("y", .num 9)])]

/-- A raw policy whose tool `"X"` declares the unknown security level
`"extreme"` and whose `defaults` map is empty. -/
def badLevelPolicy : RawSecurityPolicy :=
  { tools := [("X", { securityLevel := some "extreme" })] }

/-- The empty raw policy (everything well-formed, no `defaults`
entries). -/
def emptyRawPolicy : RawSecurityPolicy := {}

/-! ## Helper lemmas -/

/-- Deleting a key makes its lookup fail. -/
theorem lookup_storeDelete (s : Store) (key : String) :
    (storeDelete s key).lookup key = none := by
  induction s with
  | nil => rfl
  | cons kv t ih =>
    rcases kv with ⟨k, v⟩
    unfold storeDelete
    by_cases h : k = key
    · rw [List.filter_cons, if_neg (by simp [h])]
      exact ih
    · rw [List.filter_cons, if_pos (by simp [h]), List.lookup_cons]
      simp only [show (key == k) = false by simp [Ne.symm h]]
      exact ih

/-- Inserting a binding makes its lookup succeed with the new value. -/
theorem lookup_storeInsert_self (s : Store) (key : String) (v : PermissionInfo) :
    (storeInsert s key v).lookup key = some v := by
  simp [storeInsert, List.lookup_cons]

/-- Every expiry timestamp computed by `calculateExpiresAt` is in the
future (or present) relative to `now`. -/
theorem now_le_of_calculateExpiresAt {s : String} {now e : Nat}
    (h : calculateExpiresAt s now = some e) : now ≤ e := by
  unfold calculateExpiresAt at h
  repeat' split at h
  all_goals first
    | (injection h with h; omega)
    | injection h

/-- `setPermission` with an expiry other than `"once"` always stores a
record under the key, whose timestamp (if any) is not in the past. -/
theorem setPermission_lookup_self (s : Store) (key : String) (g : Bool)
    (expOpt : Option String) (md : Option Params) (now : Nat)
    (h : expOpt ≠ some "once") :
    ∃ eAt, (setPermission s key g expOpt md now).lookup key
        = some ⟨g, eAt, now, md⟩ ∧ ∀ e, eAt = some e → now ≤ e := by
  unfold setPermission
  rw [if_neg h]
  refine ⟨_, lookup_storeInsert_self .., ?_⟩
  intro e he
  split at he
  next s' =>
    split at he
    · exact absurd he (by simp)
    · exact now_le_of_calculateExpiresAt he
  next => exact absurd he (by simp)

/-! ## Claims -/

/-- C3: `setPermission(key, true, "1h")` at time `now` followed by an
immediate `getPermission(key)` returns a `granted:true` record with
`expiresAt = now + 3600000`; once the current time strictly exceeds that
timestamp, `getPermission(key)` returns `null` and deletes the record as a
side effect of the read, with no call to `clearExpiredPermissions`. -/
theorem C3_one_hour_roundtrip_and_lazy_eviction (s : Store) (key : String)
    (md : Option Params) (now t : Nat) (h : now + 3600000 < t) :
    (getPermission (setPermission s key true (some "1h") md now) key now).1
      = some ⟨true, some (now + 3600000), now, md⟩ ∧
    (getPermission (setPermission s key true (some "1h") md now) key t).1 = none ∧
    ((getPermission (setPermission s key true (some "1h") md now) key t).2).lookup key
      = none := by
  have hset : (setPermission s key true (some "1h") md now).lookup key
      = some ⟨true, some (now + 3600000), now, md⟩ := by
    unfold setPermission
    rw [if_neg (by simp)]
    simpa [calculateExpiresAt] using lookup_storeInsert_self s key _
  refine ⟨?_, ?_, ?_⟩
  · unfold getPermission
    rw [hset]
    simp [Nat.not_lt.mpr (Nat.le_add_left _ _)]
  · unfold getPermission
    rw [hset]
    simp [h]
  · unfold getPermission
    rw [hset]
    simp only [show ((now + 3600000 ≠ 0 : Bool) && (now + 3600000 < t : Bool)) = true by simp [h]]
    simpa using lookup_storeDelete _ key

/-- C3 witness: the concrete instance `key = "k"`, `now = 100`,
`t = 3600101` on the empty store. -/
theorem C3_witness :
    100 + 3600000 < 3600101 ∧
    (getPermission (setPermission [] "k" true (some "1h") none 100) "k" 100).1
      = some ⟨true, some (100 + 3600000), 100, none⟩ :=
  ⟨by omega,
   (C3_one_hour_roundtrip_and_lazy_eviction [] "k" none 100 3600101 (by omega)).1⟩

/-- C4 counterexample: with a pre-existing non-expiring grant under the
key, `setPermission(key, true, "once")` followed by `getPermission(key)`
does NOT return `null` — the prior record is still there, refuting the
claim's universally quantified "returns null". -/
theorem C4_counterexample :
    ¬ ((getPermission
        (setPermission [("k", { granted := true, grantedAt := 0 })] "k" true
          (some "once") none 5) "k" 5).1 = none) := by
  intro hcontra
  simp [setPermission, getPermission, List.lookup_cons] at hcontra

/-- C4 (amended): `setPermission(key, true, "once")` is a no-op on the
store for every prior state, so an immediate `getPermission(key)` returns
exactly what it would have returned before the call — in particular `null`
whenever the store held no record under the key (e.g. from the empty
store), though a pre-existing record remains visible. -/
theorem C4_once_never_persisted (store : Store) (key : String)
    (md : Option Params) (now t : Nat) :
    setPermission store key true (some "once") md now = store ∧
    getPermission (setPermission [] key true (some "once") md now) key t
      = (none, []) := by
  constructor
  · simp [setPermission]
  · simp [setPermission, getPermission]

/-- C7: any expiry string that is neither a recognized preset nor a
`^\d+[mhd]$` custom duration is stored without failing, as a record with
no `expiresAt`; `getPermission` keeps returning that record at every later
time, until `removePermission` deletes it. -/
theorem C7_unrecognized_expiry_never_expires (expiry : String)
    (h1 : expiry ≠ "once") (h2 : expiry ≠ "session") (h3 : expiry ≠ "1h")
    (h4 : expiry ≠ "24h") (h5 : expiry ≠ "7d")
    (hpat : calculateExpiresAt.parseCustomExpiry expiry = none)
    (s : Store) (key : String) (g : Bool) (md : Option Params) (now : Nat) :
    (setPermission s key g (some expiry) md now).lookup key
      = some ⟨g, none, now, md⟩ ∧
    (∀ t, getPermission (setPermission s key g (some expiry) md now) key t
      = (some ⟨g, none, now, md⟩, setPermission s key g (some expiry) md now)) ∧
    (removePermission (setPermission s key g (some expiry) md now) key).lookup key
      = none := by
  have hcalc : calculateExpiresAt expiry now = none := by
    unfold calculateExpiresAt
    rw [if_neg h1, if_neg h2, if_neg h3, if_neg h4, if_neg h5, hpat]
  have hset : (setPermission s key g (some expiry) md now).lookup key
      = some ⟨g, none, now, md⟩ := by
    unfold setPermission
    rw [if_neg (by simp [h1])]
    by_cases he : expiry = ""
    · simpa [he] using lookup_storeInsert_self s key _
    · simpa [he, hcalc] using lookup_storeInsert_self s key _
  refine ⟨hset, ?_, ?_⟩
  · intro t
    unfold getPermission
    rw [hset]
    rfl
  · exact lookup_storeDelete _ key


/-- C7 witness: the concrete unrecognized expiry string `"2x"`. -/
theorem C7_witness :
    (setPermission [] "k" true (some "2x") none 7).lookup "k"
      = some ⟨true, none, 7, none⟩ :=
  (C7_unrecognized_expiry_never_expires "2x" (by decide) (by decide) (by decide)
    (by decide) (by decide) rfl [] "k" true none 7).1

/-- C10: the distinct parameter bags `{a:{x:1}}` and `{a:{y:9}}` (differing
only inside a nested object) derive the same permission key for every
identifier and tool name: the sorted-top-level-keys replacer passed to
`JSON.stringify` drops every nested key not also present at top level, so
both bags serialize to the same string and hash identically. -/
theorem C10_nested_bags_collide :
    nestedBag1 ≠ nestedBag2 ∧
    ∀ userId toolName : String,
      generatePermissionKey userId toolName nestedBag1
        = generatePermissionKey userId toolName nestedBag2 := by
  constructor
  · intro hcontra
    simp [nestedBag1, nestedBag2] at hcontra
  · intro userId toolName
    have hh : hashParams nestedBag1 = hashParams nestedBag2 := rfl
    unfold generatePermissionKey
    rw [if_pos (by simp [nestedBag1]), if_pos (by simp [nestedBag2]), hh]

/-- C8: when the wrapped tool's `execute` throws and the permission hooks
granted the call, the proxied `execute` resolves normally with the
structured payload produced by `onError` — status `error`, the tool name,
and the thrown error's message — and the exception is never rethrown past
the proxy boundary (the model returns a plain `ProxyOutcome`, not an
exception). -/
theorem C8_thrown_error_becomes_structured_payload (securityPolicy : SecurityPolicy)
    (store : Option Store) (defaultUserId name : String)
    (f : Params → Except JsError JsonValue) (params : Params)
    (ctxUserId : Option String) (now : Nat) (e : JsError)
    (hgrant : ((beforeExecution securityPolicy store defaultUserId name params
      ctxUserId now).1).cont = true)
    (hthrow : f params = .error e) :
    (proxiedExecute securityPolicy store defaultUserId name (some f) params
      ctxUserId now).1 = .payload (onErrorHook name e) ∧
    (onErrorHook name e).status = "error" ∧
    (onErrorHook name e).toolName = name ∧
    (onErrorHook name e).error = some e.message := by
  refine ⟨?_, rfl, rfl, rfl⟩
  unfold proxiedExecute
  simp [hgrant, hthrow]

/-- C8 witness: under `openPolicy` the call to `"T"` is granted without a
store lookup, and a tool throwing `Error("boom")` yields the `onError`
payload. -/
theorem C8_witness :
    ((beforeExecution openPolicy (some []) "anonymous" "T" [] none 0).1).cont
      = true ∧
    (proxiedExecute openPolicy (some []) "anonymous" "T"
        (some fun _ => .error ⟨"boom"⟩) [] none 0).1
      = .payload (onErrorHook "T" ⟨"boom"⟩) :=
  ⟨rfl, (C8_thrown_error_becomes_structured_payload openPolicy (some []) "anonymous"
      "T" (fun _ => .error ⟨"boom"⟩) [] none 0 ⟨"boom"⟩ rfl rfl).1⟩

/-- The loop of `evaluateParameterRules`, related to the spec-side
filter/fold/last-message description, for arbitrary accumulator values. -/
theorem evalRulesLoop_spec (params : Params) (l : List ParameterRule)
    (lvl : Option SecurityLevel) (msg : Option String) :
    evalRulesLoop params l lvl msg =
      ⟨((claimMatchedRules params l).filterMap (·.securityLevel)).foldl
          (fun a x => some (getHigherSecurityLevel a (some x))) lvl,
        (((claimMatchedRules params l).filterMap fun r =>
            if truthyStr r.message then r.message else none).getLast?).or msg,
        claimMatchedRules params l⟩ := by
  induction l generalizing lvl msg with
  | nil => simp [evalRulesLoop, claimMatchedRules]
  | cons r t ih =>
    by_cases hr : evaluateRule r params
    · have hmr : claimMatchedRules params (r :: t) = r :: claimMatchedRules params t := by
        simp [claimMatchedRules, List.filter_cons, hr]
      rw [hmr]
      simp only [evalRulesLoop, hr, if_true]
      rw [ih]
      refine congrArg₂ (fun a b => RuleEvaluationResult.mk a b _) ?_ ?_
      · cases hsl : r.securityLevel with
        | none => simp [List.filterMap_cons, hsl]
        | some l0 => simp [List.filterMap_cons, hsl]
      · by_cases hm : truthyStr r.message
        · rcases hmm : r.message with _ | m
          · simp [hmm, truthyStr] at hm
          · rw [hmm] at hm
            simp only [List.filterMap_cons, hmm, if_pos hm]
            rw [List.getLast?_cons]
            cases hrest : ((claimMatchedRules params t).filterMap fun r =>
                if truthyStr r.message then r.message else none).getLast? with
            | none => simp [hrest]
            | some y => simp [hrest]
        · simp [List.filterMap_cons, hm]
    · have hmr : claimMatchedRules params (r :: t) = claimMatchedRules params t := by
        simp [claimMatchedRules, List.filter_cons, hr]
      rw [hmr]
      simp only [evalRulesLoop, hr, if_false]
      exact ih lvl msg

/-- C6: `evaluateParameterRules` returns exactly: the fold of
`getHigherSecurityLevel` over the levels of the matching rules that
specify one (`none` when no matching rule does), the message of the last
matching rule carrying a message (last-match-wins by rule-list order), and
every matching rule in list order regardless of level. -/
theorem C6_evaluate_rules_result_shape (toolName : String) (params : Params)
    (rules : List (String × List ParameterRule)) :
    evaluateParameterRules toolName params rules =
      ⟨claimFoldLevel (claimMatchedRules params ((rules.lookup toolName).getD [])),
        claimLastMessage (claimMatchedRules params ((rules.lookup toolName).getD [])),
        claimMatchedRules params ((rules.lookup toolName).getD [])⟩ := by
  unfold evaluateParameterRules claimFoldLevel claimLastMessage
  rw [evalRulesLoop_spec]
  simp

/-- C1: the resolved security level is computed in exactly the claimed
order — explicit tool metadata level; only if absent, the level of the
category named by the metadata; a parameter-rule level replaces the
candidate only when strictly higher by `compareSecurityLevels` (rules can
escalate, never lower); `medium` when nothing is defined.  In particular
the `{param:"amount", condition:"greaterThan", value:1000,
securityLevel:"critical"}` rule for `"Pay"` pushes a `{amount:2000}` call
to `critical` over the tool's base level `low`. -/
theorem C1_severity_resolution_order :
    (∀ (toolName : String) (metadata : ToolMetadata) (params : Params)
        (securityPolicy : SecurityPolicy),
      determineSecurityLevel toolName metadata params securityPolicy
        = claimResolvedLevel toolName metadata params securityPolicy) ∧
    determineSecurityLevel "Pay" ((payPolicy.tools.lookup "Pay").getD {})
      [("amount", .num 2000)] payPolicy = .critical := by
  constructor
  · intro toolName metadata params pol
    unfold determineSecurityLevel claimResolvedLevel
    rcases pol with ⟨tools, cats, defs, prules⟩
    rcases metadata with ⟨msl, mcat, mpm⟩
    cases msl with
    | some l =>
      cases prules with
      | none => simp [truthyStr, evaluateParameterRules, evalRulesLoop]
      | some rules => simp [truthyStr]
    | none =>
      cases mcat with
      | none => cases prules <;> simp [truthyStr, evaluateParameterRules, evalRulesLoop]
      | some c =>
        by_cases hc : c = ""
        · cases prules <;> simp [truthyStr, hc, evaluateParameterRules, evalRulesLoop]
        · cases prules <;> simp [truthyStr, hc, evaluateParameterRules, evalRulesLoop]
  · rfl

/-- Association-list lookup is invariant under permutation when the keys
are duplicate-free. -/
theorem lookup_eq_of_perm {β : Type} {l₁ l₂ : List (String × β)}
    (h : l₁.Perm l₂) :
    (l₁.map Prod.fst).Nodup → ∀ k : String, l₁.lookup k = l₂.lookup k := by
  induction h with
  | nil => exact fun _ _ => rfl
  | cons x h ih =>
    intro nd k
    rcases x with ⟨a, b⟩
    simp only [List.map_cons, List.nodup_cons] at nd
    rw [List.lookup_cons, List.lookup_cons]
    cases hk : k == a with
    | true => rfl
    | false => exact ih nd.2 k
  | swap x y l =>
    intro nd k
    rcases x with ⟨a, b⟩
    rcases y with ⟨a', b'⟩
    simp only [List.map_cons, List.nodup_cons, List.mem_cons] at nd
    have hne : a' ≠ a := fun hh => nd.1 (Or.inl hh)
    rw [List.lookup_cons, List.lookup_cons, List.lookup_cons, List.lookup_cons]
    cases hk : k == a' with
    | true =>
      have hka : k = a' := by simpa using hk
      rw [show (k == a) = false by simp [hka, hne]]
    | false => rfl
  | trans h₁ h₂ ih₁ ih₂ =>
    intro nd k
    rw [ih₁ nd k, ih₂ (((h₁.map Prod.fst).nodup_iff).mp nd) k]

/-- Sorting the key list is invariant under permutation of the bag. -/
theorem sortKeys_eq_of_perm {p1 p2 : Params} (h : p1.Perm p2) :
    sortKeys p1 = sortKeys p2 :=
  List.eq_of_perm_of_sorted
    ((List.perm_insertionSort _ _).trans
      ((h.map Prod.fst).trans (List.perm_insertionSort _ _).symm))
    (List.sorted_insertionSort _ _) (List.sorted_insertionSort _ _)

/-- Lookup through the recursive filtering pass. -/
theorem jsFilterFields_lookup (K : List String) (fs : List (String × JsonValue))
    (k : String) :
    (jsFilterFields K fs).lookup k = (fs.lookup k).map (jsFilter K) := by
  induction fs with
  | nil => rfl
  | cons kv t ih =>
    rcases kv with ⟨k', v⟩
    rw [jsFilterFields, List.lookup_cons, List.lookup_cons]
    cases hk : k == k' with
    | true => rfl
    | false => exact ih

/-- The sorted-replacer serialization of a parameter bag depends only on
its key/value content, not on insertion order. -/
theorem jsStringifySorted_eq_of_perm {p1 p2 : Params} (h : p1.Perm p2)
    (nd : (p1.map Prod.fst).Nodup) :
    jsStringifySorted p1 = jsStringifySorted p2 := by
  unfold jsStringifySorted
  rw [← sortKeys_eq_of_perm h]
  have hobj : jsFilter (sortKeys p1) (.obj p1) = jsFilter (sortKeys p1) (.obj p2) := by
    rw [jsFilter, jsFilter]
    unfold reorderFields
    have hfun : ∀ k : String,
        ((jsFilterFields (sortKeys p1) p1).lookup k).map (fun v => (k, v))
          = ((jsFilterFields (sortKeys p1) p2).lookup k).map (fun v => (k, v)) := by
      intro k
      rw [jsFilterFields_lookup, jsFilterFields_lookup, lookup_eq_of_perm h nd k]
    exact congrArg JsonValue.obj (List.filterMap_congr fun k _ => hfun k)
  rw [hobj]

/-- C5: the derived permission key for an empty parameter bag is exactly
`"id:tool"` with no hash suffix, and for every bag the key is invariant
under re-ordering of the bag's fields (keys are sorted before hashing). -/
theorem C5_key_shape_and_order_invariance :
    (∀ userId toolName : String,
      generatePermissionKey userId toolName [] = userId ++ ":" ++ toolName) ∧
    (∀ (userId toolName : String) (p1 p2 : Params), p1.Perm p2 →
      (p1.map Prod.fst).Nodup →
      generatePermissionKey userId toolName p1
        = generatePermissionKey userId toolName p2) := by
  constructor
  · intro userId toolName
    rfl
  · intro userId toolName p1 p2 h nd
    unfold generatePermissionKey
    by_cases hl : p1.length > 0
    · rw [if_pos hl, if_pos (h.length_eq ▸ hl)]
      unfold hashParams
      rw [jsStringifySorted_eq_of_perm h nd]
    · rw [if_neg hl, if_neg (h.length_eq ▸ hl)]

/-- C5 witness: the spec's `{a:1, b:2}` vs `{b:2, a:1}` instance. -/
theorem C5_witness :
    generatePermissionKey "id" "tool" [("a", .num 1), ("b", .num 2)]
      = generatePermissionKey "id" "tool" [("b", .num 2), ("a", .num 1)] :=
  C5_key_shape_and_order_invariance.2 "id" "tool" _ _
    (List.Perm.swap ("b", JsonValue.num 2) ("a", JsonValue.num 1) []) (by decide)

/-- Any error entry forces the validator's `valid` flag to `false`. -/
theorem valid_eq_false_of_mem {p : RawSecurityPolicy} {msg : String}
    (h : msg ∈ (validateSecurityPolicy p).errors) :
    (validateSecurityPolicy p).valid = false := by
  have hne := List.ne_nil_of_mem h
  have hv : (validateSecurityPolicy p).valid
      = (validateSecurityPolicy p).errors.isEmpty := rfl
  rw [hv]
  cases hiso : (validateSecurityPolicy p).errors.isEmpty with
  | false => rfl
  | true => exact absurd (List.isEmpty_iff.mp hiso) hne

/-- C9: `validateSecurityPolicy` always returns the structured result
(never throws; `valid` is exactly "no errors"); a tool or category with an
unknown security level contributes an error entry and makes `valid` false,
while a `defaults` map missing an entry for some level contributes only a
warning — shown concretely by the empty policy, which is valid with no
errors but non-empty warnings. -/
theorem C9_validator_structured_result :
    (∀ p : RawSecurityPolicy,
      (validateSecurityPolicy p).valid = (validateSecurityPolicy p).errors.isEmpty) ∧
    (∀ (p : RawSecurityPolicy) (name : String) (md : RawToolMetadata) (lvl : String),
      (name, md) ∈ p.tools → md.securityLevel = some lvl → lvl ≠ "" →
      isValidSecurityLevel lvl = false →
      ("Invalid security level for tool \"" ++ name ++ "\": " ++ lvl)
          ∈ (validateSecurityPolicy p).errors ∧
        (validateSecurityPolicy p).valid = false) ∧
    (∀ (p : RawSecurityPolicy) (name : String) (cc : RawCategoryConfig),
      (name, cc) ∈ p.categories → isValidSecurityLevel cc.securityLevel = false →
      ("Invalid security level for category \"" ++ name ++ "\": " ++ cc.securityLevel)
          ∈ (validateSecurityPolicy p).errors ∧
        (validateSecurityPolicy p).valid = false) ∧
    (∀ (p : RawSecurityPolicy) (lvl : String),
      lvl ∈ securityLevelStrings → p.defaults.lookup lvl = none →
      ("Missing default configuration for security level: " ++ lvl)
          ∈ (validateSecurityPolicy p).warnings) ∧
    ((validateSecurityPolicy emptyRawPolicy).valid = true ∧
      (validateSecurityPolicy emptyRawPolicy).errors = [] ∧
      (validateSecurityPolicy emptyRawPolicy).warnings ≠ []) := by
  refine ⟨fun p => rfl, ?_, ?_, ?_, ?_, ?_, ?_⟩
  · intro p name md lvl hmem hsl hne hbad
    have hin : ("Invalid security level for tool \"" ++ name ++ "\": " ++ lvl)
        ∈ toolLevelErrors p :=
      List.mem_flatMap.mpr ⟨(name, md), hmem, by simp [hsl, hne, hbad]⟩
    have herr : ("Invalid security level for tool \"" ++ name ++ "\": " ++ lvl)
        ∈ (validateSecurityPolicy p).errors := by
      have : (validateSecurityPolicy p).errors
          = toolLevelErrors p ++ categoryLevelErrors p ++
            defaultsEntryErrors p ++ ruleErrors p := rfl
      rw [this]
      simp only [List.mem_append]
      exact Or.inl (Or.inl (Or.inl hin))
    exact ⟨herr, valid_eq_false_of_mem herr⟩
  · intro p name cc hmem hbad
    have hin : ("Invalid security level for category \"" ++ name ++ "\": " ++ cc.securityLevel)
        ∈ categoryLevelErrors p :=
      List.mem_flatMap.mpr ⟨(name, cc), hmem, by simp [hbad]⟩
    have herr : ("Invalid security level for category \"" ++ name ++ "\": " ++ cc.securityLevel)
        ∈ (validateSecurityPolicy p).errors := by
      have : (validateSecurityPolicy p).errors
          = toolLevelErrors p ++ categoryLevelErrors p ++
            defaultsEntryErrors p ++ ruleErrors p := rfl
      rw [this]
      simp only [List.mem_append]
      exact Or.inl (Or.inl (Or.inr hin))
    exact ⟨herr, valid_eq_false_of_mem herr⟩
  · intro p lvl hlvl hdef
    have hin : ("Missing default configuration for security level: " ++ lvl)
        ∈ missingDefaultWarnings p :=
      List.mem_flatMap.mpr ⟨lvl, hlvl, by simp [hdef]⟩
    have : (validateSecurityPolicy p).warnings
        = toolCategoryWarnings p ++ missingDefaultWarnings p := rfl
    rw [this]
    exact List.mem_append.mpr (Or.inr hin)
  · rfl
  · rfl
  · decide

/-- C9 witness: `badLevelPolicy` (unknown tool level `"extreme"`, empty
`defaults`) exhibits both the error and the warning cases. -/
theorem C9_witness :
    (("Invalid security level for tool \"" ++ "X" ++ "\": " ++ "extreme")
        ∈ (validateSecurityPolicy badLevelPolicy).errors ∧
      (validateSecurityPolicy badLevelPolicy).valid = false) ∧
    ("Missing default configuration for security level: " ++ "none")
        ∈ (validateSecurityPolicy badLevelPolicy).warnings :=
  ⟨C9_validator_structured_result.2.1 badLevelPolicy "X"
      { securityLevel := some "extreme" } "extreme" (by simp [badLevelPolicy]) rfl
      (by decide) (by decide),
    C9_validator_structured_result.2.2.2.1 badLevelPolicy "none" (by decide) rfl⟩

/-- A looked-up record whose expiry (if any) has not passed is returned
unchanged by `getPermission`. -/
theorem getPermission_fresh {s : Store} {key : String} {info : PermissionInfo}
    {now : Nat} (hl : s.lookup key = some info)
    (hb : ∀ e, info.expiresAt = some e → now ≤ e) :
    (getPermission s key now).1 = some info := by
  unfold getPermission
  rw [hl]
  cases he : info.expiresAt with
  | none => simp [he]
  | some e =>
    have hnl : ¬ e < now := Nat.not_lt.mpr (hb e he)
    simp [he, hnl]

/-- C2 (amended): when a store is configured and the resolved severity's
configured expiry is not `"once"`, an approving `handlePermissionResponse`
stores a `granted:true` record under the very key `beforeExecution`
derives for identical arguments, and a subsequent `beforeExecution` with
the same arguments (at the same time) returns `{continue:true}`.  (For a
severity whose expiry is `"once"` — e.g. the built-in `critical` default —
the grant is never persisted and the claim fails; see the
counterexample.) -/
theorem C2_grant_then_continue (securityPolicy : SecurityPolicy)
    (toolName : String) (params : Params) (ctxUserId : Option String)
    (s : Store) (now : Nat)
    (hexpiry :
      ((securityPolicy.defaults.lookup (determineSecurityLevel toolName
          ((securityPolicy.tools.lookup toolName).getD {}) params securityPolicy)).getD
        (DEFAULT_SECURITY_LEVELS (determineSecurityLevel toolName
          ((securityPolicy.tools.lookup toolName).getD {}) params securityPolicy))).expiry
        ≠ some "once") :
    (∃ s', (handlePermissionResponse toolName params true ctxUserId securityPolicy
        (some s) now).2 = some s' ∧
      ∃ info, s'.lookup (generatePermissionKey (effectiveUserId ctxUserId "anonymous")
          toolName params) = some info ∧ info.granted = true) ∧
    ((beforeExecution securityPolicy
        (handlePermissionResponse toolName params true ctxUserId securityPolicy
          (some s) now).2
        "anonymous" toolName params ctxUserId now).1).cont = true := by
  obtain ⟨eAt, hlook, hbound⟩ := setPermission_lookup_self s
    (generatePermissionKey (effectiveUserId ctxUserId "anonymous") toolName params) true
    ((securityPolicy.defaults.lookup (determineSecurityLevel toolName
        ((securityPolicy.tools.lookup toolName).getD {}) params securityPolicy)).getD
      (DEFAULT_SECURITY_LEVELS (determineSecurityLevel toolName
        ((securityPolicy.tools.lookup toolName).getD {}) params securityPolicy))).expiry
    (some [("approvedAt", .num now)]) now hexpiry
  have hstore : (handlePermissionResponse toolName params true ctxUserId securityPolicy
      (some s) now).2
      = some (setPermission s
          (generatePermissionKey (effectiveUserId ctxUserId "anonymous") toolName params)
          true
          ((securityPolicy.defaults.lookup (determineSecurityLevel toolName
              ((securityPolicy.tools.lookup toolName).getD {}) params securityPolicy)).getD
            (DEFAULT_SECURITY_LEVELS (determineSecurityLevel toolName
              ((securityPolicy.tools.lookup toolName).getD {}) params securityPolicy))).expiry
          (some [("approvedAt", .num now)]) now) := rfl
  constructor
  · exact ⟨_, hstore, _, hlook, rfl⟩
  · rw [hstore]
    unfold beforeExecution
    by_cases hreq : ((securityPolicy.defaults.lookup (determineSecurityLevel toolName
        ((securityPolicy.tools.lookup toolName).getD {}) params securityPolicy)).getD
      (DEFAULT_SECURITY_LEVELS (determineSecurityLevel toolName
        ((securityPolicy.tools.lookup toolName).getD {}) params securityPolicy))).requirePermission
    · simp only [hreq, Bool.not_true, Bool.false_eq_true, if_false]
      rw [getPermission_fresh hlook hbound]
      simp
    · simp [hreq]


/-- C2 counterexample: under `critOncePolicy` the resolved severity is
`critical`, whose built-in expiry is `"once"`; the approval stores
nothing, so the subsequent `beforeExecution` with identical arguments
still returns `{continue:false}` — refuting the claim's "for every
security policy". -/
theorem C2_counterexample :
    ((beforeExecution critOncePolicy
        (handlePermissionResponse "Pay" [] true none critOncePolicy (some []) 0).2
        "anonymous" "Pay" [] none 0).1).cont = false := by rfl

/-- C2 witness: under `lowPolicy` (expiry `"24h"`), approval followed by
`beforeExecution` with the same arguments continues. -/
theorem C2_witness :
    ((beforeExecution lowPolicy
        (handlePermissionResponse "T" [] true none lowPolicy (some []) 0).2
        "anonymous" "T" [] none 0).1).cont = true :=
  (C2_grant_then_continue lowPolicy "T" [] none [] 0 (by decide)).2

end MPT
